import Mathlib

/-
Verification of the wonder-scraper Listing Matching & Market Metrics Engine.

The development shallowly embeds:
  * the tokenizer and conflict auditor of scripts/audit_conflicts.py,
  * the listing matcher is_valid_match (app/scraper/ebay.py, modelled from
    the spec since that file is not part of the source tree given here),
  * the metrics engine PriceCalculator (app/services/price_calculator.py,
    likewise modelled from the spec and its unit tests).

Prices are rationals, timestamps are integers (days).  Database reads are
modelled as pure functions over an explicit DB state.
-/

namespace WonderScraper

/-- Stop-word list of scripts/audit_conflicts.py (STOPWORDS): articles,
prepositions and the domain filler words of the set's own name. -/
def STOPWORDS : List String :=
  ["the", "of", "a", "an", "in", "on", "at", "for", "to", "with", "by",
   "and", "or", "wonders", "first", "existence"]

/-- Splits a character list at whitespace runs, accumulating the current
word in reverse; empty pieces are dropped, as Python's str.split() does. -/
def chunksAux : List Char → List Char → List String
  | [], [] => []
  | [], acc => [String.mk acc.reverse]
  | c :: cs, acc =>
    if c.isWhitespace then
      (if acc = [] then chunksAux cs [] else String.mk acc.reverse :: chunksAux cs [])
    else chunksAux cs (c :: acc)

/-- Python's str.split() with no arguments: split on whitespace runs and
drop empty pieces. -/
def pyWords (t : String) : List String :=
  chunksAux t.data []

/-- Python's str.lower(), character-wise (titles and names are ASCII). -/
def lowerStr (s : String) : String :=
  String.mk (s.data.map Char.toLower)

/-- get_tokens of scripts/audit_conflicts.py: empty input gives the empty
set; otherwise split on whitespace, lower-case every word and drop the
stop-words. -/
def get_tokens (text : String) : Finset String :=
  if text = "" then ∅
  else (((pyWords text).map lowerStr).filter (fun w => w ∉ STOPWORDS)).toFinset

/-- Modelled from the spec: the baseline overlap-ratio threshold of the
matcher (spec 4.3 step 4, a fixed named constant per spec 9). -/
def overlapThreshold : ℚ := 1/2

/-- Modelled from the spec: is_valid_match of app/scraper/ebay.py, which is
absent from the given sources (only its callers are present).  Spec 4.3:
tokenize both texts; reject when the token intersection is empty; reject
when some sibling that shares a token with the target has all of its unique
tokens (sibling tokens minus target tokens) contained in the title; finally
accept when the overlap ratio meets the threshold or the target's tokens
are a subset of the title's tokens. -/
def is_valid_match (listingTitle targetName : String)
    (siblingNames : List String) : Bool :=
  let tt := get_tokens listingTitle
  let nt := get_tokens targetName
  if tt ∩ nt = ∅ then false
  else if siblingNames.any (fun s =>
      let st := get_tokens s
      decide ((st ∩ nt).Nonempty ∧ st \ nt ⊆ tt))
  then false
  else decide
    (overlapThreshold ≤ ((tt ∩ nt).card : ℚ) / ((tt ∪ nt).card : ℚ) ∨ nt ⊆ tt)

/-- Words of the string, as whole lower-cased terms (whitespace-split). -/
def lowerWords (t : String) : List String :=
  (pyWords t).map lowerStr

lemma get_tokens_empty : get_tokens "" = ∅ := rfl

lemma mem_get_tokens {text t : String} :
    t ∈ get_tokens text ↔ (t ∈ lowerWords text ∧ t ∉ STOPWORDS) := by
  by_cases h : text = ""
  · subst h
    have hp : lowerWords "" = ([] : List String) := by decide
    simp [get_tokens_empty, hp]
  · simp [get_tokens, h, lowerWords, List.mem_filter]

lemma ivm_inter_empty {lt tn : String} {sibs : List String}
    (h : get_tokens lt ∩ get_tokens tn = ∅) :
    is_valid_match lt tn sibs = false := by
  simp [is_valid_match, h]

/-- C9: get_tokens is a pure function returning the empty set on empty
input and otherwise exactly the lower-cased whitespace-split terms of the
input with the fixed stop-word list removed. -/
theorem get_tokens_spec :
    get_tokens "" = ∅ ∧
    ∀ text t : String,
      t ∈ get_tokens text ↔ (t ∈ lowerWords text ∧ t ∉ STOPWORDS) :=
  ⟨get_tokens_empty, fun _ _ => mem_get_tokens⟩

/-- C2: is_valid_match is a total function (it can never throw) and on
every degenerate input — empty listing title, empty target name, or a
listing title whose token set does not intersect the target name's token
set — it returns false. -/
theorem matcher_degenerate_returns_false (listingTitle targetName : String)
    (siblingNames : List String) :
    (listingTitle = "" → is_valid_match listingTitle targetName siblingNames = false) ∧
    (targetName = "" → is_valid_match listingTitle targetName siblingNames = false) ∧
    (get_tokens listingTitle ∩ get_tokens targetName = ∅ →
      is_valid_match listingTitle targetName siblingNames = false) := by
  refine ⟨fun h => ?_, fun h => ?_, fun h => ivm_inter_empty h⟩
  · subst h
    exact ivm_inter_empty (by simp [get_tokens_empty])
  · subst h
    exact ivm_inter_empty (by simp [get_tokens_empty])

/-- Closed instance of the C2 theorem at concrete degenerate inputs. -/
theorem matcher_degenerate_returns_false_witness :
    is_valid_match "" "Ethereal Grove" [] = false :=
  (matcher_degenerate_returns_false "" "Ethereal Grove" []).1 rfl

/-- C1: if some sibling's name shares a token with the target's name and
the listing title contains, as whole lower-cased words, every token unique
to that sibling (sibling name tokens minus target name tokens), then
is_valid_match rejects the listing for the target. -/
theorem matcher_rejects_sibling_claimed (listingTitle targetName : String)
    (siblingNames : List String) (s : String) (hs : s ∈ siblingNames)
    (hshare : (get_tokens s ∩ get_tokens targetName).Nonempty)
    (huniq : ∀ t ∈ get_tokens s \ get_tokens targetName, t ∈ lowerWords listingTitle) :
    is_valid_match listingTitle targetName siblingNames = false := by
  by_cases h0 : get_tokens listingTitle ∩ get_tokens targetName = ∅
  · exact ivm_inter_empty h0
  · have hsub : get_tokens s \ get_tokens targetName ⊆ get_tokens listingTitle := by
      intro t ht
      have hts : t ∈ get_tokens s := (Finset.mem_sdiff.mp ht).1
      exact mem_get_tokens.mpr ⟨huniq t ht, (mem_get_tokens.mp hts).2⟩
    simp [is_valid_match, h0]
    intro hall
    exact absurd hsub (hall s hs hshare)

/-- Closed instance of the C1 theorem: the "Plant Terror of Ethereal
Grove — Mythic" listing is rejected for the item "Ethereal Grove" when
"Plant Terror of Ethereal Grove" is a sibling. -/
theorem matcher_rejects_sibling_claimed_witness :
    is_valid_match "Plant Terror of Ethereal Grove — Mythic" "Ethereal Grove"
      ["Plant Terror of Ethereal Grove"] = false :=
  matcher_rejects_sibling_claimed "Plant Terror of Ethereal Grove — Mythic"
    "Ethereal Grove" ["Plant Terror of Ethereal Grove"]
    "Plant Terror of Ethereal Grove" (by decide) (by decide) (by decide)

/-! ## Data model: CatalogItem (Card), Observation (MarketPrice row), Snapshot -/

/-- Modelled from the spec: CatalogItem (the Card row of app/models, not
in the given sources): id, canonical name, rarity tier, product category. -/
structure Card where
  id : ℕ
  name : String
  rarity : String
  productType : String
deriving DecidableEq

/-- Modelled from the spec: Observation (the MarketPrice row of
app/models, not in the given sources): owning card id, raw title, price,
listing kind ("sold" / "active-ask" / "active-bid"), observation timestamp
in days, detected treatment. -/
structure Listing where
  id : ℕ
  cardId : ℕ
  title : String
  price : ℚ
  kind : String
  ts : ℤ
  treatment : String
deriving DecidableEq

/-- Modelled from the spec: Snapshot (the MarketSnapshot row of
app/models, not in the given sources): per-card rollup with lowest current
ask and highest current bid. -/
structure Snapshot where
  cardId : ℕ
  ts : ℤ
  lowestAsk : Option ℚ
  highestBid : Option ℚ
deriving DecidableEq

/-- The persisted state read by the engine and the audit script. -/
structure DB where
  cards : List Card
  listings : List Listing
  snapshots : List Snapshot
deriving DecidableEq

/-! ## Metrics engine (modelled from the spec)

app/services/price_calculator.py is not part of the given sources (only
its unit tests are), so PriceCalculator is modelled from spec 4.5 and the
behaviour pinned by src/tests/test_price_calculator.py.  Repository reads
are modelled as pure list filters; the observation query is modelled as
returning rows ordered by timestamp (SQL order-by), which theorems state
as an explicit sortedness hypothesis where it matters. -/

/-- Modelled from the spec: recognized lookback-period tokens
(1d, 3d, 7d, 14d, 24h, 30d, 90d, all); "all" and every unrecognized token
yield no cutoff, i.e. the unbounded window. -/
def periodDays (p : String) : Option ℤ :=
  if p = "24h" then some 1
  else if p = "1d" then some 1
  else if p = "3d" then some 3
  else if p = "7d" then some 7
  else if p = "14d" then some 14
  else if p = "30d" then some 30
  else if p = "90d" then some 90
  else none

/-- Absolute cutoff timestamp of a lookback window, none when unbounded. -/
def cutoff (now : ℤ) (p : String) : Option ℤ :=
  (periodDays p).map (fun d => now - d)

/-- Whether an observation falls inside a window with the given cutoff. -/
def inWindow (c : Option ℤ) (l : Listing) : Prop :=
  match c with
  | none => True
  | some t => t ≤ l.ts

instance instDecidableInWindow (c : Option ℤ) (l : Listing) :
    Decidable (inWindow c l) :=
  match c with
  | none => isTrue trivial
  | some t => inferInstanceAs (Decidable (t ≤ l.ts))

/-- Sold observations of one card (query card_id = ..., listing_type = "sold"). -/
def soldObs (db : DB) (cardId : ℕ) : List Listing :=
  db.listings.filter (fun l => l.cardId = cardId ∧ l.kind = "sold")

/-- Sold observations of one card inside the lookback window. -/
def windowObs (db : DB) (cardId : ℕ) (now : ℤ) (period : String) : List Listing :=
  (soldObs db cardId).filter (fun l => inWindow (cutoff now period) l)

/-- Prices of the windowed sold observations after excluding non-positive
prices (spec 4.5, vwap). -/
def posPrices (db : DB) (cardId : ℕ) (now : ℤ) (period : String) : List ℚ :=
  ((windowObs db cardId now period).filter (fun l => 0 < l.price)).map
    (fun l => l.price)

/-- Modelled from the spec: calculate_vwap of PriceCalculator — the sum of
prices divided by the count over windowed sold observations with positive
price, none when that set is empty. -/
def calculate_vwap (db : DB) (cardId : ℕ) (now : ℤ) (period : String) : Option ℚ :=
  let ps := posPrices db cardId now period
  if ps = [] then none else some (ps.sum / (ps.length : ℚ))

/-- One exponential-smoothing step with multiplier k. -/
def emaStep (k e p : ℚ) : ℚ := p * k + e * (1 - k)

/-- Modelled from the spec: calculate_ema of PriceCalculator — standard
exponential smoothing (multiplier 2/(window+1), seeded with the simple
average of the first window prices) over the chronologically ordered sold
prices in the window; none when fewer than window points are available. -/
def calculate_ema (db : DB) (cardId : ℕ) (now : ℤ) (period : String)
    (window : ℕ) : Option ℚ :=
  let ps := (windowObs db cardId now period).map (fun l => l.price)
  if window = 0 ∨ ps.length < window then none
  else
    some ((ps.drop window).foldl (emaStep (2 / ((window : ℚ) + 1)))
      ((ps.take window).sum / (window : ℚ)))

/-- Percentage change from the first to the last price. -/
def delta100 (pFirst pLast : ℚ) : ℚ := (pLast - pFirst) / pFirst * 100

/-- Modelled from the spec: calculate_price_delta of PriceCalculator —
percentage change between the earliest and the latest sold price inside
the window; none with fewer than 2 points. -/
def calculate_price_delta (db : DB) (cardId : ℕ) (now : ℤ) (period : String) :
    Option ℚ :=
  match windowObs db cardId now period with
  | [] => none
  | [_] => none
  | a :: b :: t => some (delta100 a.price (((a :: b :: t).getLast (by simp)).price))

/-- Bid/ask spread report of calculate_bid_ask_spread. -/
structure SpreadInfo where
  lowestAsk : ℚ
  highestBid : ℚ
  spreadAmount : ℚ
  spreadPercent : ℚ
deriving DecidableEq

/-- Latest Snapshot of a card (repository contract latest(item_id)). -/
def latestSnapshot (db : DB) (cardId : ℕ) : Option Snapshot :=
  (db.snapshots.filter (fun s => s.cardId = cardId)).foldl
    (fun acc s =>
      match acc with
      | none => some s
      | some t => if t.ts ≤ s.ts then some s else some t) none

/-- Modelled from the spec: calculate_bid_ask_spread of PriceCalculator —
reads the latest Snapshot; an absent highest bid counts as zero, so the
spread amount degenerates to the lowest ask; none when no Snapshot exists. -/
def calculate_bid_ask_spread (db : DB) (cardId : ℕ) : Option SpreadInfo :=
  match latestSnapshot db cardId with
  | none => none
  | some s =>
    let ask := s.lowestAsk.getD 0
    let bid := s.highestBid.getD 0
    some ⟨ask, bid, ask - bid, (ask - bid) / ask * 100⟩

/-- Modelled from the spec: calculate_price_to_sale of PriceCalculator —
ratio of the latest ask to the VWAP of the period; none when either input
is unavailable. -/
def calculate_price_to_sale (db : DB) (cardId : ℕ) (now : ℤ) (period : String) :
    Option ℚ :=
  match latestSnapshot db cardId with
  | none => none
  | some s =>
    match s.lowestAsk, calculate_vwap db cardId now period with
    | some a, some v => some (a / v)
    | _, _ => none

/-- One floor-price group: minimum price, count and average. -/
structure FloorStats where
  floor : ℚ
  count : ℕ
  avg : ℚ
deriving DecidableEq

/-- Minimum price of a group (0 on the empty group, which floorBy never
emits for positive min_sales). -/
def minPrice : List Listing → ℚ
  | [] => 0
  | l :: ls => ls.foldl (fun m x => min m x.price) l.price

/-- Floor/count/average report of one group. -/
def groupStats (g : List Listing) : FloorStats :=
  ⟨minPrice g, g.length, (g.map (fun l => l.price)).sum / (g.length : ℚ)⟩

/-- Modelled from the spec: the grouping core of the floor_by functions —
group the given sold observations by a key, keep only groups with at
least min_sales observations, and report floor/count/avg per kept key. -/
def floorBy (keyf : Listing → String) (s : List Listing) (minSales : ℕ) :
    List (String × FloorStats) :=
  (((s.map keyf).dedup).filter
      (fun k => minSales ≤ (s.filter (fun l => keyf l = k)).length)).map
    (fun k => (k, groupStats (s.filter (fun l => keyf l = k))))

/-- Card owning a listing. -/
def cardOf (db : DB) (l : Listing) : Option Card :=
  db.cards.find? (fun c => c.id = l.cardId)

/-- Rarity tier of the card owning a listing. -/
def listingRarity (db : DB) (l : Listing) : String :=
  ((cardOf db l).map (fun c => c.rarity)).getD "Unknown"

/-- Product category of the card owning a listing. -/
def listingProductType (db : DB) (l : Listing) : String :=
  ((cardOf db l).map (fun c => c.productType)).getD "Unknown"

/-- Sold observations of the requested product category inside the window. -/
def eligibleSold (db : DB) (now : ℤ) (period : String) (productType : String) :
    List Listing :=
  db.listings.filter (fun l =>
    l.kind = "sold" ∧ listingProductType db l = productType ∧
      inWindow (cutoff now period) l)

/-- Combination group key rarity_treatment. -/
def comboKey (db : DB) (l : Listing) : String :=
  listingRarity db l ++ "_" ++ l.treatment

/-- Modelled from the spec: calculate_floor_by_rarity of PriceCalculator. -/
def calculate_floor_by_rarity (db : DB) (now : ℤ) (period productType : String)
    (minSales : ℕ) : List (String × FloorStats) :=
  floorBy (listingRarity db) (eligibleSold db now period productType) minSales

/-- Modelled from the spec: calculate_floor_by_treatment of PriceCalculator. -/
def calculate_floor_by_treatment (db : DB) (now : ℤ) (period productType : String)
    (minSales : ℕ) : List (String × FloorStats) :=
  floorBy (fun l => l.treatment) (eligibleSold db now period productType) minSales

/-- Modelled from the spec: calculate_floor_by_combination of
PriceCalculator, keyed by the rarity_treatment pair. -/
def calculate_floor_by_combination (db : DB) (now : ℤ) (period productType : String)
    (minSales : ℕ) : List (String × FloorStats) :=
  floorBy (comboKey db) (eligibleSold db now period productType) minSales

/-! ## Metrics-engine theorems -/

/-- C3: calculate_vwap is the sum over count of the windowed sold prices
after excluding non-positive prices; an empty set after exclusion gives
none, a single positive observation gives exactly its price. -/
theorem vwap_mean_of_positive_sold (db : DB) (cardId : ℕ) (now : ℤ)
    (period : String) :
    (posPrices db cardId now period ≠ [] →
      calculate_vwap db cardId now period =
        some ((posPrices db cardId now period).sum /
          ((posPrices db cardId now period).length : ℚ))) ∧
    ((∀ l ∈ windowObs db cardId now period, l.price ≤ 0) →
      calculate_vwap db cardId now period = none) ∧
    (∀ l, windowObs db cardId now period = [l] → 0 < l.price →
      calculate_vwap db cardId now period = some l.price) := by
  refine ⟨fun h => ?_, fun h => ?_, fun l hw hp => ?_⟩
  · simp [calculate_vwap, h]
  · have hnil : posPrices db cardId now period = [] := by
      simp only [posPrices, List.map_eq_nil_iff, List.filter_eq_nil_iff]
      intro l hl
      simpa using not_lt.mpr (h l hl)
    simp [calculate_vwap, hnil]
  · have hone : posPrices db cardId now period = [l.price] := by
      simp [posPrices, hw, List.filter_cons, hp]
    simp [calculate_vwap, hone]

/-- Closed instance of the C3 theorem: a window holding one sold
observation at price 10 has VWAP exactly 10. -/
theorem vwap_mean_of_positive_sold_witness :
    calculate_vwap
      ⟨[], [⟨1, 5, "Single", 10, "sold", 99, "Classic Paper"⟩], []⟩
      5 100 "7d" = some 10 :=
  (vwap_mean_of_positive_sold
      ⟨[], [⟨1, 5, "Single", 10, "sold", 99, "Classic Paper"⟩], []⟩
      5 100 "7d").2.2
    ⟨1, 5, "Single", 10, "sold", 99, "Classic Paper"⟩ (by decide) (by decide)

/-- C4: every no-data condition of the engine yields none instead of an
exception: empty windowed observation set for VWAP, fewer points than the
EMA window, fewer than 2 points for the price delta, a missing Snapshot
for the bid/ask spread and the price-to-sale ratio, and an unavailable
VWAP for the price-to-sale ratio. -/
theorem engine_no_data_none (db : DB) (cardId : ℕ) (now : ℤ) (period : String)
    (window : ℕ) :
    (windowObs db cardId now period = [] →
      calculate_vwap db cardId now period = none) ∧
    ((windowObs db cardId now period).length < window →
      calculate_ema db cardId now period window = none) ∧
    ((windowObs db cardId now period).length < 2 →
      calculate_price_delta db cardId now period = none) ∧
    (latestSnapshot db cardId = none →
      calculate_bid_ask_spread db cardId = none) ∧
    (latestSnapshot db cardId = none →
      calculate_price_to_sale db cardId now period = none) ∧
    (calculate_vwap db cardId now period = none →
      calculate_price_to_sale db cardId now period = none) := by
  refine ⟨fun h => ?_, fun h => ?_, fun h => ?_, fun h => ?_, fun h => ?_,
    fun h => ?_⟩
  · simp [calculate_vwap, posPrices, h]
  · rw [calculate_ema]
    rw [if_pos (Or.inr (by simpa using h))]
  · rcases hw : windowObs db cardId now period with _ | ⟨a, _ | ⟨b, t⟩⟩
    · simp [calculate_price_delta, hw]
    · simp [calculate_price_delta, hw]
    · rw [hw] at h
      simp only [List.length_cons] at h
      omega
  · simp [calculate_bid_ask_spread, h]
  · simp [calculate_price_to_sale, h]
  · rw [calculate_price_to_sale]
    rcases latestSnapshot db cardId with _ | s
    · rfl
    · rcases s.lowestAsk with _ | a <;> simp [h]

/-- Closed instance of the C4 theorem on an empty database. -/
theorem engine_no_data_none_witness :
    calculate_vwap ⟨[], [], []⟩ 5 100 "7d" = none ∧
    calculate_ema ⟨[], [], []⟩ 5 100 "7d" 14 = none ∧
    calculate_price_delta ⟨[], [], []⟩ 5 100 "7d" = none ∧
    calculate_bid_ask_spread ⟨[], [], []⟩ 5 = none ∧
    calculate_price_to_sale ⟨[], [], []⟩ 5 100 "7d" = none :=
  ⟨(engine_no_data_none ⟨[], [], []⟩ 5 100 "7d" 14).1 (by decide),
   (engine_no_data_none ⟨[], [], []⟩ 5 100 "7d" 14).2.1 (by decide),
   (engine_no_data_none ⟨[], [], []⟩ 5 100 "7d" 14).2.2.1 (by decide),
   (engine_no_data_none ⟨[], [], []⟩ 5 100 "7d" 14).2.2.2.1 (by decide),
   (engine_no_data_none ⟨[], [], []⟩ 5 100 "7d" 14).2.2.2.2.1 (by decide)⟩

/-- C5: a period token outside the recognized set behaves exactly like the
unbounded "all" window in every engine function, rather than erroring. -/
theorem unrecognized_period_falls_back_to_all (db : DB) (cardId : ℕ) (now : ℤ)
    (window minSales : ℕ) (productType : String) (p : String)
    (hp : p ∉ (["1d", "3d", "7d", "14d", "24h", "30d", "90d", "all"] : List String)) :
    periodDays p = none ∧
    calculate_vwap db cardId now p = calculate_vwap db cardId now "all" ∧
    calculate_ema db cardId now p window = calculate_ema db cardId now "all" window ∧
    calculate_price_delta db cardId now p = calculate_price_delta db cardId now "all" ∧
    calculate_price_to_sale db cardId now p = calculate_price_to_sale db cardId now "all" ∧
    calculate_floor_by_rarity db now p productType minSales =
      calculate_floor_by_rarity db now "all" productType minSales ∧
    calculate_floor_by_treatment db now p productType minSales =
      calculate_floor_by_treatment db now "all" productType minSales ∧
    calculate_floor_by_combination db now p productType minSales =
      calculate_floor_by_combination db now "all" productType minSales := by
  simp only [List.mem_cons, List.not_mem_nil, or_false, not_or] at hp
  obtain ⟨h1, h3, h7, h14, h24, h30, h90, hall⟩ := hp
  have hpd : periodDays p = none := by
    simp [periodDays, h1, h3, h7, h14, h24, h30, h90]
  have hco : cutoff now p = cutoff now "all" := by
    have hall2 : periodDays "all" = none := by decide
    rw [cutoff, cutoff, hpd, hall2]
  have hwin : windowObs db cardId now p = windowObs db cardId now "all" := by
    simp only [windowObs, hco]
  have helig : eligibleSold db now p productType = eligibleSold db now "all" productType := by
    simp only [eligibleSold, hco]
  refine ⟨hpd, ?_, ?_, ?_, ?_, ?_, ?_, ?_⟩ <;>
    simp only [calculate_vwap, calculate_ema, calculate_price_delta,
      calculate_price_to_sale, calculate_floor_by_rarity,
      calculate_floor_by_treatment, calculate_floor_by_combination,
      posPrices, hwin, helig]

/-- Closed instance of the C5 theorem at the period token "invalid". -/
theorem unrecognized_period_falls_back_to_all_witness :
    calculate_vwap
      ⟨[], [⟨1, 5, "Single", 10, "sold", 99, "Classic Paper"⟩], []⟩
      5 100 "invalid" = calculate_vwap
      ⟨[], [⟨1, 5, "Single", 10, "sold", 99, "Classic Paper"⟩], []⟩
      5 100 "all" :=
  (unrecognized_period_falls_back_to_all
      ⟨[], [⟨1, 5, "Single", 10, "sold", 99, "Classic Paper"⟩], []⟩
      5 100 14 3 "Single" "invalid" (by decide)).2.1

/-- Counts of a filter only shrink when the predicate gets stronger. -/
lemma length_filter_le_of_imp {α : Type} (l : List α) (p q : α → Bool)
    (h : ∀ a, p a = true → q a = true) :
    (l.filter p).length ≤ (l.filter q).length := by
  induction l with
  | nil => simp
  | cons a t ih =>
    by_cases hpa : p a = true
    · rw [List.filter_cons_of_pos hpa, List.filter_cons_of_pos (h a hpa)]
      simpa using ih
    · rw [List.filter_cons_of_neg (by simpa using hpa)]
      refine le_trans ih ?_
      by_cases hqa : q a = true
      · rw [List.filter_cons_of_pos hqa]
        exact Nat.le_succ _
      · rw [List.filter_cons_of_neg (by simpa using hqa)]

/-- Every group emitted by floorBy meets the min-sales threshold. -/
lemma floorBy_count_ge (keyf : Listing → String) (s : List Listing)
    (minSales : ℕ) (k : String) (st : FloorStats)
    (hmem : (k, st) ∈ floorBy keyf s minSales) : minSales ≤ st.count := by
  simp only [floorBy, List.mem_map, List.mem_filter] at hmem
  obtain ⟨k', ⟨_, hguard⟩, heq⟩ := hmem
  obtain ⟨rfl, rfl⟩ := Prod.mk.injEq .. ▸ heq
  simpa [groupStats] using hguard

/-- Raising the min-sales threshold never adds groups to floorBy. -/
lemma floorBy_length_antitone (keyf : Listing → String) (s : List Listing)
    {m1 m2 : ℕ} (h : m1 ≤ m2) :
    (floorBy keyf s m2).length ≤ (floorBy keyf s m1).length := by
  simp only [floorBy, List.length_map]
  refine length_filter_le_of_imp _ _ _ (fun k hk => ?_)
  simp only [decide_eq_true_eq] at hk ⊢
  exact le_trans h hk

/-- C6: every group of the floor-price breakdowns (by rarity, by
treatment, by rarity-treatment combination) has count at least min_sales;
groups below the threshold are omitted, so raising min_sales never
increases the number of returned groups. -/
theorem floor_groups_respect_min_sales (db : DB) (now : ℤ)
    (period productType : String) (minSales m2 : ℕ) (k : String)
    (st : FloorStats) :
    ((k, st) ∈ calculate_floor_by_rarity db now period productType minSales →
      minSales ≤ st.count) ∧
    ((k, st) ∈ calculate_floor_by_treatment db now period productType minSales →
      minSales ≤ st.count) ∧
    ((k, st) ∈ calculate_floor_by_combination db now period productType minSales →
      minSales ≤ st.count) ∧
    (minSales ≤ m2 →
      (calculate_floor_by_rarity db now period productType m2).length ≤
        (calculate_floor_by_rarity db now period productType minSales).length ∧
      (calculate_floor_by_treatment db now period productType m2).length ≤
        (calculate_floor_by_treatment db now period productType minSales).length ∧
      (calculate_floor_by_combination db now period productType m2).length ≤
        (calculate_floor_by_combination db now period productType minSales).length) :=
  ⟨floorBy_count_ge _ _ _ _ _,
   floorBy_count_ge _ _ _ _ _,
   floorBy_count_ge _ _ _ _ _,
   fun h => ⟨floorBy_length_antitone _ _ h, floorBy_length_antitone _ _ h,
     floorBy_length_antitone _ _ h⟩⟩

/-- Concrete two-observation database for the C6 witness. -/
def dbC6 : DB :=
  ⟨[⟨5, "Test Card", "Common", "Single"⟩],
   [⟨1, 5, "Test Card", 1, "sold", 99, "Classic Paper"⟩,
    ⟨2, 5, "Test Card", 2, "sold", 98, "Classic Paper"⟩], []⟩

lemma dbC6_floor_eval :
    calculate_floor_by_combination dbC6 100 "30d" "Single" 2 =
      [("Common_Classic Paper", groupStats dbC6.listings)] := rfl

/-- Closed instance of the C6 theorem: the one combination group of dbC6
meets min_sales 2, and raising min_sales to 3 does not add groups. -/
theorem floor_groups_respect_min_sales_witness :
    ((2 : ℕ) ≤ (groupStats dbC6.listings).count) ∧
    (calculate_floor_by_combination dbC6 100 "30d" "Single" 3).length ≤
      (calculate_floor_by_combination dbC6 100 "30d" "Single" 2).length :=
  ⟨(floor_groups_respect_min_sales dbC6 100 "30d" "Single" 2 3
      "Common_Classic Paper" (groupStats dbC6.listings)).2.2.1
      (by rw [dbC6_floor_eval]; exact List.mem_singleton.mpr rfl),
   ((floor_groups_respect_min_sales dbC6 100 "30d" "Single" 2 3
      "Common_Classic Paper" (groupStats dbC6.listings)).2.2.2 (by decide)).2.2⟩

/-! ## C7: widening the period never shrinks the delta magnitude -/

/-- The p1 lookback window is contained in the p2 lookback window. -/
def periodWiderEq (p1 p2 : String) : Prop :=
  match periodDays p1, periodDays p2 with
  | _, none => True
  | some a, some b => a ≤ b
  | none, some _ => False

instance instDecidablePeriodWiderEq (p1 p2 : String) :
    Decidable (periodWiderEq p1 p2) := by
  unfold periodWiderEq
  rcases periodDays p1 with _ | a <;> rcases periodDays p2 with _ | b <;>
    infer_instance

/-- Filtering twice with a stronger predicate first collapses to the
stronger filter. -/
lemma filter_imp_filter {α : Type} (p q : α → Bool)
    (h : ∀ a, p a = true → q a = true) :
    ∀ l : List α, (l.filter q).filter p = l.filter p := by
  intro l
  induction l with
  | nil => rfl
  | cons a t ih =>
    by_cases hpa : p a = true
    · rw [List.filter_cons_of_pos (h a hpa), List.filter_cons_of_pos hpa,
        List.filter_cons_of_pos hpa, ih]
    · by_cases hqa : q a = true
      · rw [List.filter_cons_of_pos hqa, List.filter_cons_of_neg hpa,
          List.filter_cons_of_neg hpa, ih]
      · rw [List.filter_cons_of_neg hqa, List.filter_cons_of_neg hpa, ih]

/-- Filtering with a predicate that is upward closed along a sorted list
keeps a suffix of the list. -/
lemma filter_suffix_of_pairwise {α : Type} (p : α → Bool) (R : α → α → Prop)
    (hclosed : ∀ a b, R a b → p a = true → p b = true) :
    ∀ l : List α, l.Pairwise R → l.filter p <:+ l := by
  intro l
  induction l with
  | nil => intro _; simp
  | cons a t ih =>
    intro hpw
    rw [List.pairwise_cons] at hpw
    obtain ⟨ha, ht⟩ := hpw
    by_cases hpa : p a = true
    · rw [List.filter_cons_of_pos hpa,
        List.filter_eq_self.mpr (fun b hb => hclosed a b (ha b hb) hpa)]
    · rw [List.filter_cons_of_neg hpa]
      exact (ih ht).trans (List.suffix_cons a t)

/-- Percentage-change magnitude grows with a lower start below a common
end, on an increasing series. -/
lemma delta100_abs_mono_incr {f1 f2 L : ℚ} (h2 : 0 < f2) (h21 : f2 ≤ f1)
    (h1L : f1 ≤ L) : |delta100 f1 L| ≤ |delta100 f2 L| := by
  have h1 : 0 < f1 := lt_of_lt_of_le h2 h21
  have hL : (0 : ℚ) < L := lt_of_lt_of_le h1 h1L
  have e1 : (0 : ℚ) ≤ (L - f1) / f1 * 100 :=
    mul_nonneg (div_nonneg (by linarith) h1.le) (by norm_num)
  have e2 : (0 : ℚ) ≤ (L - f2) / f2 * 100 :=
    mul_nonneg (div_nonneg (by linarith) h2.le) (by norm_num)
  rw [delta100, delta100, abs_of_nonneg e1, abs_of_nonneg e2,
    div_mul_eq_mul_div, div_mul_eq_mul_div, div_le_div_iff₀ h1 h2]
  nlinarith

/-- Percentage-change magnitude grows with a higher start above a common
end, on a decreasing series. -/
lemma delta100_abs_mono_decr {f1 f2 L : ℚ} (hL : 0 < L) (hL1 : L ≤ f1)
    (h12 : f1 ≤ f2) : |delta100 f1 L| ≤ |delta100 f2 L| := by
  have h1 : 0 < f1 := lt_of_lt_of_le hL hL1
  have h2 : 0 < f2 := lt_of_lt_of_le h1 h12
  have e1 : delta100 f1 L ≤ 0 := by
    rw [delta100]
    apply mul_nonpos_of_nonpos_of_nonneg
    · exact div_nonpos_of_nonpos_of_nonneg (by linarith) h1.le
    · norm_num
  have e2 : delta100 f2 L ≤ 0 := by
    rw [delta100]
    apply mul_nonpos_of_nonpos_of_nonneg
    · exact div_nonpos_of_nonpos_of_nonneg (by linarith) h2.le
    · norm_num
  rw [abs_of_nonpos e1, abs_of_nonpos e2, neg_le_neg_iff, delta100, delta100,
    div_mul_eq_mul_div, div_mul_eq_mul_div, div_le_div_iff₀ h2 h1]
  nlinarith

/-- C7: on a sold-price series that is strictly monotonic over time (in
either direction, with positive prices), widening the lookback period can
only grow the magnitude of the price delta: if the narrower period yields
a delta, the wider period yields one of at least the same magnitude. -/
theorem price_delta_abs_monotone_in_period (db : DB) (cardId : ℕ) (now : ℤ)
    (p1 p2 : String) (d1 : ℚ)
    (hsort : (soldObs db cardId).Pairwise (fun a b => a.ts < b.ts))
    (hmono : (soldObs db cardId).Pairwise (fun a b => a.price < b.price) ∨
      (soldObs db cardId).Pairwise (fun a b => b.price < a.price))
    (hpos : ∀ l ∈ soldObs db cardId, 0 < l.price)
    (hwide : periodWiderEq p1 p2)
    (h1 : calculate_price_delta db cardId now p1 = some d1) :
    ∃ d2, calculate_price_delta db cardId now p2 = some d2 ∧ |d1| ≤ |d2| := by
  have himp : ∀ l : Listing,
      inWindow (cutoff now p1) l → inWindow (cutoff now p2) l := by
    intro l hl
    unfold periodWiderEq at hwide
    rcases hpd1 : periodDays p1 with _ | a <;>
      rcases hpd2 : periodDays p2 with _ | b <;>
        rw [hpd1, hpd2] at hwide <;>
          simp only [cutoff, hpd1, hpd2] at hl ⊢
    · exact trivial
    · exact (hwide : False).elim
    · exact trivial
    · have hab : a ≤ b := hwide
      have hl' : now - a ≤ l.ts := hl
      show now - b ≤ l.ts
      omega
  have hsuf : windowObs db cardId now p1 <:+ windowObs db cardId now p2 := by
    have hq : windowObs db cardId now p1 =
        (windowObs db cardId now p2).filter
          (fun l => decide (inWindow (cutoff now p1) l)) := by
      simp only [windowObs]
      rw [filter_imp_filter]
      intro l hl
      simp only [decide_eq_true_eq] at hl ⊢
      exact himp l hl
    rw [hq]
    refine filter_suffix_of_pairwise _ (fun a b => a.ts ≤ b.ts) ?_ _ ?_
    · intro a b hab ha
      simp only [decide_eq_true_eq] at ha ⊢
      rcases hc : cutoff now p1 with _ | c
      · exact trivial
      · rw [hc] at ha
        exact le_trans ha hab
    · simp only [windowObs]
      exact (hsort.imp (fun h => le_of_lt h)).filter _
  have hsubS2 : ∀ x ∈ windowObs db cardId now p2, x ∈ soldObs db cardId := by
    intro x hx
    simp only [windowObs] at hx
    exact List.mem_of_mem_filter hx
  rcases hw1 : windowObs db cardId now p1 with _ | ⟨a, w1t⟩
  · rw [calculate_price_delta, hw1] at h1
    exact absurd h1 (by simp)
  rcases w1t with _ | ⟨b, t⟩
  · rw [calculate_price_delta, hw1] at h1
    exact absurd h1 (by simp)
  rw [calculate_price_delta, hw1] at h1
  have hd1 : d1 = delta100 a.price (((a :: b :: t).getLast (by simp)).price) := by
    exact (Option.some.injEq .. ▸ h1 : _ = d1).symm
  rcases hw2 : windowObs db cardId now p2 with _ | ⟨a2, w2t⟩
  · rw [hw1, hw2] at hsuf
    have := hsuf.length_le
    simp at this
  rcases w2t with _ | ⟨b2, t2⟩
  · rw [hw1, hw2] at hsuf
    have := hsuf.length_le
    simp at this
  rw [hw1, hw2] at hsuf
  have hne1 : (a :: b :: t) ≠ ([] : List Listing) := by simp
  have hlast : (a :: b :: t).getLast hne1 = (a2 :: b2 :: t2).getLast (by simp) := by
    rw [hsuf.getLast hne1]
  set L := (a2 :: b2 :: t2).getLast (by simp) with hLdef
  have hLmem1 : L ∈ b :: t := by
    rw [← hlast, List.getLast_cons (by simp : (b :: t) ≠ [])]
    exact List.getLast_mem _
  have hamem2 : a ∈ a2 :: b2 :: t2 := hsuf.subset (List.mem_cons_self a _)
  have hLmem2 : L ∈ a2 :: b2 :: t2 := List.getLast_mem _
  have haS : a ∈ soldObs db cardId := hsubS2 a (hw2 ▸ hamem2)
  have ha2S : a2 ∈ soldObs db cardId :=
    hsubS2 a2 (hw2 ▸ List.mem_cons_self a2 _)
  have hLS : L ∈ soldObs db cardId := hsubS2 L (hw2 ▸ hLmem2)
  refine ⟨delta100 a2.price L.price, ?_, ?_⟩
  · rw [calculate_price_delta, hw2]
  · rw [hd1]
    rcases hmono with hinc | hdec
    · have hw2inc : (a2 :: b2 :: t2).Pairwise
          (fun x y => x.price < y.price) := by
        rw [← hw2]
        simp only [windowObs]
        exact hinc.filter _
      have hw1inc : (a :: b :: t).Pairwise (fun x y => x.price < y.price) :=
        hw2inc.sublist hsuf.sublist
      have hf21 : a2.price ≤ a.price := by
        rcases List.mem_cons.mp hamem2 with heq | hmem
        · rw [heq]
        · exact (List.rel_of_pairwise_cons hw2inc hmem).le
      have hf1L : a.price ≤ L.price :=
        (List.rel_of_pairwise_cons hw1inc hLmem1).le
      have hgl : (a :: b :: t).getLast hne1 = L := hlast
      rw [hgl]
      exact delta100_abs_mono_incr (hpos a2 ha2S) hf21 hf1L
    · have hw2dec : (a2 :: b2 :: t2).Pairwise
          (fun x y => y.price < x.price) := by
        rw [← hw2]
        simp only [windowObs]
        exact hdec.filter _
      have hw1dec : (a :: b :: t).Pairwise (fun x y => y.price < x.price) :=
        hw2dec.sublist hsuf.sublist
      have hLa : L.price ≤ a.price :=
        (List.rel_of_pairwise_cons hw1dec hLmem1).le
      have ha12 : a.price ≤ a2.price := by
        rcases List.mem_cons.mp hamem2 with heq | hmem
        · rw [heq]
        · exact (List.rel_of_pairwise_cons hw2dec hmem).le
      have hgl : (a :: b :: t).getLast hne1 = L := hlast
      rw [hgl]
      exact delta100_abs_mono_decr (hpos L hLS) hLa ha12

/-- Concrete five-observation uptrend database for the C7 witness
(prices 10, 15, 20, 25, 30 sold over 30 days). -/
def dbC7 : DB :=
  ⟨[], [⟨1, 5, "T", 10, "sold", 72, "Classic Paper"⟩,
        ⟨2, 5, "T", 15, "sold", 79, "Classic Paper"⟩,
        ⟨3, 5, "T", 20, "sold", 86, "Classic Paper"⟩,
        ⟨4, 5, "T", 25, "sold", 93, "Classic Paper"⟩,
        ⟨5, 5, "T", 30, "sold", 100, "Classic Paper"⟩], []⟩

/-- Closed instance of the C7 theorem: on the dbC7 uptrend the 7d delta
is dominated in magnitude by some 30d delta. -/
theorem price_delta_abs_monotone_in_period_witness :
    ∃ d2, calculate_price_delta dbC7 5 100 "30d" = some d2 ∧
      |delta100 25 30| ≤ |d2| :=
  price_delta_abs_monotone_in_period dbC7 5 100 "7d" "30d" (delta100 25 30)
    (by decide) (Or.inl (by decide)) (by decide) (by decide) (by rfl)

/-! ## Conflict Auditor (scripts/audit_conflicts.py)

The script only issues SELECT queries and prints; it is embedded as an
explicit state transformer over DB whose read operations return the state
unchanged, so that the frame property is a statement about the embedded
program rather than an assumption. -/

/-- Risk-pair criterion of audit_conflicts: both stop-word-filtered name
token sets non-empty, at least one shared token, and Jaccard ratio above
1/2 or one token set a subset of the other. -/
def candidatePair (a b : Card) : Bool :=
  let ta := get_tokens a.name
  let tb := get_tokens b.name
  if ta = ∅ then false
  else if tb = ∅ then false
  else
    decide (1 ≤ (ta ∩ tb).card ∧
      (((ta ∩ tb).card : ℚ) / ((ta ∪ tb).card : ℚ) > 1/2 ∨
        ta ⊆ tb ∨ tb ⊆ ta))

/-- All risk pairs (i before j in catalog order), as in the double loop of
audit_conflicts. -/
def riskPairs : List Card → List (Card × Card)
  | [] => []
  | a :: rest =>
    (rest.filter (fun b => candidatePair a b)).map (fun b => (a, b)) ++
      riskPairs rest

/-- Whether the lower-cased whitespace-split listing title contains at
least one of the given tokens (the inner loop with break of
audit_conflicts). -/
def suspectToken (uniqOther : Finset String) (l : Listing) : Bool :=
  decide (∃ t ∈ uniqOther, t ∈ pyWords (lowerStr l.title))

/-- Listings assigned to one card (query card_id = ...). -/
def listingsOf (db : DB) (cardId : ℕ) : List Listing :=
  db.listings.filter (fun l => l.cardId = cardId)

/-- Suspected mismatches in one direction of a risk pair (a, b): listings
of a whose title holds a token unique to b; each listing at most once. -/
def directionMismatches (db : DB) (a b : Card) : List Listing :=
  let ub := get_tokens b.name \ get_tokens a.name
  if ub = ∅ then []
  else (listingsOf db a.id).filter (fun l => suspectToken ub l)

/-- Report entries of one risk pair: both directions, each entry is
(owner card, other card, suspect listing). -/
def pairReport (db : DB) (p : Card × Card) : List (Card × Card × Listing) :=
  (directionMismatches db p.1 p.2).map (fun l => (p.1, p.2, l)) ++
    (directionMismatches db p.2 p.1).map (fun l => (p.2, p.1, l))

/-- The pure content of the audit report over the whole catalog. -/
def audit_report (db : DB) : List (Card × Card × Listing) :=
  (riskPairs db.cards).flatMap (pairReport db)

/-- session.exec(select(Card)).all(): a read, state unchanged. -/
def execSelectCards (db : DB) : DB × List Card := (db, db.cards)

/-- session.exec(select(MarketPrice).where(card_id = id)).all(): a read,
state unchanged. -/
def execSelectListings (db : DB) (cardId : ℕ) : DB × List Listing :=
  (db, listingsOf db cardId)

/-- One iteration of the risk-pair loop of audit_conflicts: query the two
directions (guarded on non-empty unique-token sets, as the script is) and
append the found mismatch entries. -/
def auditStep (st : DB × List (Card × Card × Listing)) (p : Card × Card) :
    DB × List (Card × Card × Listing) :=
  let ub := get_tokens p.2.name \ get_tokens p.1.name
  let ra := if ub = ∅ then (st.1, ([] : List Listing))
    else
      let q := execSelectListings st.1 p.1.id
      (q.1, q.2.filter (fun l => suspectToken ub l))
  let ua := get_tokens p.1.name \ get_tokens p.2.name
  let rb := if ua = ∅ then (ra.1, ([] : List Listing))
    else
      let q := execSelectListings ra.1 p.2.id
      (q.1, q.2.filter (fun l => suspectToken ua l))
  (rb.1, st.2 ++ (ra.2.map (fun l => (p.1, p.2, l)) ++
    rb.2.map (fun l => (p.2, p.1, l))))

/-- audit_conflicts of scripts/audit_conflicts.py as a state transformer:
read the catalog, enumerate risk pairs, scan both directions of every
pair, and return the final session state with the report. -/
def audit_conflicts (db : DB) : DB × List (Card × Card × Listing) :=
  let s0 := execSelectCards db
  (riskPairs s0.2).foldl auditStep (s0.1, [])

lemma auditStep_eq (d : DB) (acc : List (Card × Card × Listing))
    (p : Card × Card) :
    auditStep (d, acc) p = (d, acc ++ pairReport d p) := by
  by_cases h1 : get_tokens p.2.name \ get_tokens p.1.name = ∅ <;>
    by_cases h2 : get_tokens p.1.name \ get_tokens p.2.name = ∅ <;>
      simp [auditStep, pairReport, directionMismatches, execSelectListings,
        h1, h2]

lemma audit_fold (ps : List (Card × Card)) :
    ∀ (d : DB) (acc : List (Card × Card × Listing)),
      ps.foldl auditStep (d, acc) = (d, acc ++ ps.flatMap (pairReport d)) := by
  induction ps with
  | nil => intro d acc; simp
  | cons p ps ih =>
    intro d acc
    rw [List.foldl_cons, auditStep_eq, ih, List.flatMap_cons, List.append_assoc]

/-- C8: running the Conflict Auditor leaves the persisted state exactly as
it was — it deletes, relabels and mutates nothing — and only produces the
report of suspected mismatches. -/
theorem audit_conflicts_preserves_state (db : DB) :
    (audit_conflicts db).1 = db ∧ (audit_conflicts db).2 = audit_report db := by
  rw [audit_conflicts, execSelectCards, audit_fold, audit_report]
  exact ⟨rfl, by rw [List.nil_append]⟩

/-- C10: for a risk pair (a, b), a listing assigned to a is a suspected
mismatch in that direction exactly when its lower-cased whitespace-split
title contains at least one token unique to b — one token suffices — and
the mismatch list takes each stored listing at most once (it is a sublist
of the store). -/
theorem audit_mismatch_rule (db : DB) (a b : Card) (l : Listing)
    (hpair : (a, b) ∈ riskPairs db.cards) :
    (l ∈ directionMismatches db a b ↔
      (l ∈ db.listings ∧ l.cardId = a.id ∧
        ∃ t ∈ get_tokens b.name \ get_tokens a.name,
          t ∈ pyWords (lowerStr l.title))) ∧
    List.Sublist (directionMismatches db a b) db.listings := by
  constructor
  · by_cases hub : get_tokens b.name \ get_tokens a.name = ∅
    · simp [directionMismatches, hub]
    · simp only [directionMismatches]
      rw [if_neg hub]
      simp only [listingsOf, List.mem_filter, suspectToken, decide_eq_true_eq]
      tauto
  · rw [directionMismatches]
    by_cases hub : get_tokens b.name \ get_tokens a.name = ∅
    · simp [hub]
    · rw [if_neg hub, listingsOf]
      exact (List.filter_sublist _).trans (List.filter_sublist _)

/-- Concrete database with the Ethereal Grove risk pair and one
cross-contaminated listing, for the C10 witness. -/
def dbC10 : DB :=
  ⟨[⟨95, "Ethereal Grove", "Epic", "Single"⟩,
    ⟨43, "Plant Terror of Ethereal Grove", "Mythic", "Single"⟩],
   [⟨7, 95, "Plant Terror of Ethereal Grove — Mythic", 50, "sold", 99,
     "Classic Paper"⟩], []⟩

/-- Closed instance of the C10 theorem: on dbC10 the listing titled
"Plant Terror of Ethereal Grove — Mythic" assigned to "Ethereal Grove" is
reported exactly by the unique-token rule. -/
theorem audit_mismatch_rule_witness :
    (⟨7, 95, "Plant Terror of Ethereal Grove — Mythic", 50, "sold", 99,
        "Classic Paper"⟩ : Listing) ∈
      directionMismatches dbC10
        ⟨95, "Ethereal Grove", "Epic", "Single"⟩
        ⟨43, "Plant Terror of Ethereal Grove", "Mythic", "Single"⟩ ↔
    ((⟨7, 95, "Plant Terror of Ethereal Grove — Mythic", 50, "sold", 99,
        "Classic Paper"⟩ : Listing) ∈ dbC10.listings ∧
      (95 : ℕ) = (95 : ℕ) ∧
      ∃ t ∈ get_tokens "Plant Terror of Ethereal Grove" \
          get_tokens "Ethereal Grove",
        t ∈ pyWords (lowerStr "Plant Terror of Ethereal Grove — Mythic")) :=
  (audit_mismatch_rule dbC10
    ⟨95, "Ethereal Grove", "Epic", "Single"⟩
    ⟨43, "Plant Terror of Ethereal Grove", "Mythic", "Single"⟩
    ⟨7, 95, "Plant Terror of Ethereal Grove — Mythic", 50, "sold", 99,
      "Classic Paper"⟩ (by with_unfolding_all decide)).1

end WonderScraper
